import Mathlib

/-!
Shallow embedding of the two ops-gateway variants of this repository:
`src/ops-service/monitoring-gateway/app.py` (namespace `MonGW`) and
`src/ops-service/viralogic-ops/app.py` (namespace `VOps`).

Modelling conventions, applied uniformly:
* Wall-clock readings (`datetime.now()`) are modelled as integer timestamps in
  milliseconds, supplied from outside.  Each probe receives the readings the
  source takes: `tStart` at probe entry, `tResp` when the HTTP response
  arrives, `tExc` inside the `except` block, `tStamp` at record construction.
  `(now - start).total_seconds() * 1000` becomes integer subtraction.
* The single outbound HTTP GET of a probe is abstracted as an `HttpOutcome`
  supplied by the environment: either the request completed with a status code
  and a body (whose JSON parse either succeeds with a `Json` value or raises
  with a message, as `await response.json()` does), or the request raised a
  transport error (`aiohttp` exception, timeout, DNS failure) with message
  `str(e)`.
* Python `None`-able strings are `Option String`; Python truthiness of such a
  value (`if not x:`) is `pyTruthy`.
* Python dicts that the source mutates by key assignment are association
  lists with Python 3.7 dict semantics (`dictInsert`): assigning to an
  existing key replaces its value in place, a new key is appended.
-/

/-- A JSON value, as produced by `await response.json()`. Opaque to the core
logic: it is only stored in `details` fields and registration metadata. -/
inductive Json where
  | null
  | bool (b : Bool)
  | num (n : Int)
  | str (s : String)
  | arr (elems : List Json)
  | obj (fields : List (String × Json))

/-- Outcome of the single outbound GET a probe performs.
`response status body`: the request completed with HTTP `status`; `body` is
the result of parsing the body as JSON (`Except.error msg` when
`response.json()` raises with message `msg`, e.g. malformed or non-JSON body).
`failure msg`: the request itself raised (connection refused, timeout, DNS
failure), with `str(e) = msg`. -/
inductive HttpOutcome where
  | response (status : Nat) (body : Except String Json)
  | failure (msg : String)

/-- The environment of one probe: its HTTP outcome together with the clock
readings the source takes (see module docstring). -/
structure ProbeEnv where
  outcome : HttpOutcome
  tStart : Int
  tResp : Int
  tExc : Int
  tStamp : Int

/-- Python truthiness of an optional string: `None` and `""` are falsy. -/
def pyTruthy : Option String → Bool
  | none => false
  | some s => !(s == "")

/-- Python `str.isspace` characters in the ASCII range, the ones
`str.strip()` removes. -/
def pyIsSpace (c : Char) : Bool :=
  c == ' ' || c == '\t' || c == '\n' || c == '\r' || c == '\x0b' || c == '\x0c'

/-- Python `str.strip()`: drop leading and trailing whitespace. -/
def pyStrip (s : String) : String :=
  String.mk (((s.data.dropWhile pyIsSpace).reverse.dropWhile pyIsSpace).reverse)

namespace MonGW

/-- Environment-variable configuration of the monitoring gateway
(`BACKEND_URL`, `RSS_SERVICE_URL`, `LOKI_URL`, with their `os.getenv`
defaults). -/
structure EnvGW where
  backend_url : String := "http://api.viralogic.io"
  rss_service_url : String := "http://rss.viralogic.io"
  loki_url : String := "http://loki:1821"

/-- One entry of `SERVICE_ENDPOINTS`: keys of the per-service config dict.
Optional keys that may be absent are `Option`. -/
structure EndpointConfigGW where
  base_url : String
  health : Option String := none
  metrics : Option String := none
  monitoring : Option String := none

/-- The static `SERVICE_ENDPOINTS` table of the monitoring gateway. -/
def SERVICE_ENDPOINTS (env : EnvGW) : List (String × EndpointConfigGW) :=
  [("backend",
     { base_url := env.backend_url, health := some "/health",
       metrics := some "/metrics", monitoring := some "/api/v1/monitoring" }),
   ("rss_service",
     { base_url := env.rss_service_url, health := some "/health/public",
       metrics := some "/metrics" }),
   ("grafana", { base_url := "http://grafana:1820", health := some "/api/health" }),
   ("prometheus", { base_url := "http://prometheus:1822", health := some "/-/healthy" }),
   ("loki", { base_url := env.loki_url, health := some "/ready" })]

/-- The `HealthStatus` pydantic model of the gateway (no `details` field). -/
structure HealthStatus where
  service : String
  status : String
  timestamp : Int
  response_time_ms : Option Int := none
  error : Option String := none

/-- The `MonitoringData` pydantic model of the gateway. -/
structure MonitoringData where
  overall_status : String
  services : List HealthStatus
  timestamp : Int
  ai_agent_authenticated : Bool

/-- `verify_ai_agent_auth` of the monitoring gateway: deny when no key is
configured, deny when no key is presented, otherwise compare the two keys
after `str.strip()` on both sides. -/
def verify_ai_agent_auth (configured presented : Option String) : Bool :=
  if !(pyTruthy configured) then false
  else if !(pyTruthy presented) then false
  else if pyStrip (presented.getD "") == pyStrip (configured.getD "") then true
  else false

/-- Body of the `try` block of the gateway's `check_service_health`.
`endpoint_config['health']` raises `KeyError` when the key is absent (the
`Except.error` carries `str(KeyError)`, which Python renders as `'health'`);
the outbound GET is abstracted by `e.outcome`; a transport failure is the
raised exception.  The gateway never reads the response body. -/
def check_try (service_name : String) (cfg : EndpointConfigGW) (e : ProbeEnv) :
    Except String HealthStatus :=
  match cfg.health with
  | none => .error "\x27health\x27"
  | some _ =>
    match e.outcome with
    | .failure msg => .error msg
    | .response status _ =>
      if status == 200 then
        .ok { service := service_name, status := "healthy", timestamp := e.tStamp,
              response_time_ms := some (e.tResp - e.tStart), error := none }
      else
        .ok { service := service_name, status := "unhealthy", timestamp := e.tStamp,
              response_time_ms := some (e.tResp - e.tStart),
              error := some ("HTTP " ++ toString status) }

/-- `check_service_health` of the monitoring gateway: the `try` body with the
`except Exception` handler that downgrades any raised error to an
`unhealthy` record whose `error` is `str(e)` and whose elapsed time is
re-measured inside the handler. -/
def check_service_health (service_name : String) (cfg : EndpointConfigGW)
    (e : ProbeEnv) : HealthStatus :=
  match check_try service_name cfg e with
  | .ok r => r
  | .error msg =>
      { service := service_name, status := "unhealthy", timestamp := e.tStamp,
        response_time_ms := some (e.tExc - e.tStart), error := some msg }

/-- `get_monitoring_overview` (post-authentication core): probe every table
entry that has a `"health"` key, then derive the overall status from the
list of records (`"healthy"` iff the list of non-healthy records is empty).
`envf` supplies each probe's environment, keyed by service name. -/
def get_monitoring_overview (table : List (String × EndpointConfigGW))
    (envf : String → ProbeEnv) (tNow : Int) : MonitoringData :=
  let services := (table.filter (fun p => p.2.health.isSome)).map
    (fun p => check_service_health p.1 p.2 (envf p.1))
  let unhealthy_services := services.filter (fun s => s.status != "healthy")
  { overall_status := if unhealthy_services.isEmpty then "healthy" else "degraded",
    services := services, timestamp := tNow, ai_agent_authenticated := true }

/-- `MAX_LOG_LIMIT` default (`os.getenv("MAX_LOG_LIMIT", "1000")`). -/
def MAX_LOG_LIMIT_default : Int := 1000

/-- `MAX_HOURS_LOOKBACK` default (`os.getenv("MAX_HOURS_LOOKBACK", "24")`). -/
def MAX_HOURS_LOOKBACK_default : Int := 24

/-- The Loki query expression built by `get_production_logs`:
`{logging_jobname=~".*SERVICE.*"}` when a service filter is given (Python
truthiness), else `{}`. -/
def build_loki_query (service : Option String) : String :=
  if pyTruthy service then
    "\x7blogging_jobname=~\".*" ++ service.getD "" ++ ".*\"\x7d"
  else "\x7b\x7d"

/-- The query parameters the gateway sends to Loki (`query_range`). Times in
nanoseconds, as the source converts them. -/
structure LokiParamsGW where
  query : String
  start_ns : Int
  end_ns : Int
  limit : Int

/-- `get_production_logs` (post-authentication): FastAPI validates
`hours : Query(24, ge=1, le=MAX_HOURS_LOOKBACK)` and
`limit : Query(100, ge=1, le=MAX_LOG_LIMIT)` before the handler runs;
`none` models the 422 validation rejection.  On success the downstream Loki
query is issued with exactly these parameters. -/
def get_production_logs (hours limit : Int) (service : Option String)
    (maxHours maxLimit : Int) (now_ns : Int) : Option LokiParamsGW :=
  if 1 ≤ hours ∧ hours ≤ maxHours ∧ 1 ≤ limit ∧ limit ≤ maxLimit then
    some { query := build_loki_query service,
           start_ns := now_ns - hours * 3600 * 1000000000,
           end_ns := now_ns,
           limit := limit }
  else none

end MonGW

namespace VOps

/-- Environment-variable configuration of the viralogic-ops service
(`BACKEND_URL`, `FRONTEND_URL`, `RSS_SERVICE_URL`, `LOKI_URL`, with their
`os.getenv` defaults). -/
structure EnvOps where
  backend_url : String := "https://api.viralogic.io"
  frontend_url : String := "https://viralogic.io"
  rss_service_url : String := "https://rss.viralogic.io"
  loki_url : String := "http://ops-loki:1821"

/-- A per-service config dict of the ops service.  Keys that a given dict may
lack (or hold Python `None` at) are `Option`; `url` is present in every
well-formed config the source builds. -/
structure OpsConfig where
  url : String
  health_endpoint : Option String := none
  monitoring_endpoint : Option String := none
  metrics_endpoint : Option String := none
  logs_endpoint : Option String := none
  register_endpoint : Option String := none
  capabilities : Option (List String) := none
  metadata : Option (List (String × Json)) := none

/-- A value sitting at a service-name position of a group dict.  In
`DEFAULT_SERVICES_CONFIG` the top-level `"rss_service"` value is itself a
flat config dict, so iterating it as a group yields its *fields* — bare
strings — as members; `str s` represents such a bare string value, `dict c` a
proper per-service config dict. -/
inductive PyConfigVal where
  | dict (c : OpsConfig)
  | str (s : String)

/-- The merged services configuration: a dict from group name to a dict from
member name to value, as association lists with dict semantics. -/
abbrev GroupedConfig := List (String × List (String × PyConfigVal))

/-- `DEFAULT_SERVICES_CONFIG`.  Note the `"rss_service"` entry: in the source
it is a flat config dict (not a dict of services), so as a group its members
are its six fields with string values. -/
def DEFAULT_SERVICES_CONFIG (env : EnvOps) : GroupedConfig :=
  [("main_app",
     [("backend", .dict
        { url := env.backend_url, health_endpoint := some "/health",
          monitoring_endpoint := some "/api/v1/monitoring",
          metrics_endpoint := some "/metrics", logs_endpoint := some "/api/v1/logs",
          register_endpoint := some "/api/v1/register" }),
      ("frontend", .dict
        { url := env.frontend_url, health_endpoint := some "/health",
          metrics_endpoint := some "/metrics", logs_endpoint := some "/api/v1/logs",
          register_endpoint := some "/api/v1/register" })]),
   ("rss_service",
     [("url", .str env.rss_service_url),
      ("health_endpoint", .str "/health/public"),
      ("monitoring_endpoint", .str "/api/v1/health"),
      ("metrics_endpoint", .str "/metrics"),
      ("logs_endpoint", .str "/api/v1/logs"),
      ("register_endpoint", .str "/api/v1/register")]),
   ("ops_services",
     [("grafana", .dict
        { url := "http://ops-grafana:3000", health_endpoint := some "/api/health" }),
      ("prometheus", .dict
        { url := "http://ops-prometheus:1822", health_endpoint := some "/-/healthy",
          metrics_endpoint := some "/api/v1/query" }),
      ("loki", .dict
        { url := env.loki_url, health_endpoint := some "/ready",
          logs_endpoint := some "/loki/api/v1/query" }),
      ("alertmanager", .dict
        { url := "http://ops-alertmanager:1823", health_endpoint := some "/-/healthy" })])]

/-- Python 3.7+ dict assignment `d[k] = v` on an association list: an
existing key keeps its position and gets the new value, a new key is
appended. -/
def dictInsert (k : String) (v : α) (d : List (String × α)) : List (String × α) :=
  if d.any (fun p => p.1 == k) then
    d.map (fun p => if p.1 == k then (k, v) else p)
  else d ++ [(k, v)]

/-- Python dict read `d.get(k)` / `d[k]`: the binding of `k`, if any. -/
def dictGet (d : List (String × α)) (k : String) : Option α :=
  (d.find? (fun p => p.1 == k)).map (·.2)

/-- One value of the `REGISTERED_SERVICES` dict: the stored config dict, the
group (stored by `register_service`, read back with
`.get("group", "registered_services")`), and the `registered_at` ISO
timestamp. -/
structure RegInfo where
  config : OpsConfig
  group : Option String
  registered_at : String

/-- The `ServiceRegistration` pydantic model, with its field defaults. -/
structure ServiceRegistration where
  service_name : String
  service_url : String
  group : String := "registered_services"
  health_endpoint : String := "/health"
  monitoring_endpoint : Option String := none
  metrics_endpoint : Option String := none
  logs_endpoint : Option String := none
  capabilities : Option (List String) := none
  metadata : Option (List (String × Json)) := none

/-- The config dict that `register_service` stores for a registration
(`capabilities or []`, `metadata or {}`). -/
def regConfigOf (r : ServiceRegistration) : OpsConfig :=
  { url := r.service_url,
    health_endpoint := some r.health_endpoint,
    monitoring_endpoint := r.monitoring_endpoint,
    metrics_endpoint := r.metrics_endpoint,
    logs_endpoint := r.logs_endpoint,
    register_endpoint := none,
    capabilities := some (r.capabilities.getD []),
    metadata := some (r.metadata.getD []) }

/-- `register_service` (post-authentication):
`REGISTERED_SERVICES[registration.service_name] = {...}`. -/
def register_service (registered : List (String × RegInfo))
    (r : ServiceRegistration) (registered_at : String) : List (String × RegInfo) :=
  dictInsert r.service_name
    { config := regConfigOf r, group := some r.group, registered_at := registered_at }
    registered

/-- The loop body of `get_services_config`: place one registered service into
its group (`config[group][service_name] = service_info["config"]`, creating
the group dict when absent). -/
def merge_step (config : GroupedConfig) (p : String × RegInfo) : GroupedConfig :=
  let group := (p.2.group).getD "registered_services"
  let inner := (dictGet config group).getD []
  dictInsert group (dictInsert p.1 (.dict p.2.config) inner) config

/-- `get_services_config`: start from `DEFAULT_SERVICES_CONFIG` and fold the
registered services in dict order into their groups. -/
def get_services_config (env : EnvOps) (registered : List (String × RegInfo)) :
    GroupedConfig :=
  registered.foldl merge_step (DEFAULT_SERVICES_CONFIG env)

/-- The `ServiceHealth` pydantic model of the ops service (it has a
`details` field). -/
structure ServiceHealth where
  service : String
  status : String
  timestamp : Int
  response_time_ms : Option Int := none
  error : Option String := none
  details : Option Json := none

/-- The `SystemOverview` pydantic model. -/
structure SystemOverview where
  overall_status : String
  services : List ServiceHealth
  timestamp : Int
  ai_agent_authenticated : Bool
  total_services : Nat
  healthy_services : Nat

/-- `verify_ai_agent_auth` of the ops service: deny when no key is
configured, deny when no key is presented, otherwise exact string
comparison. -/
def verify_ai_agent_auth (configured presented : Option String) : Bool :=
  if !(pyTruthy configured) then false
  else if !(pyTruthy presented) then false
  else if !(presented.getD "" == configured.getD "") then false
  else true

/-- Body of the `try` block of the ops `check_service_health`.
`config['url']` on a bare-string value raises
`TypeError: string indices must be integers` before any request is made; a
transport failure is the raised `aiohttp` exception; on HTTP 200 the source
calls `await response.json()`, whose failure (malformed or non-JSON body)
also raises out of the `try` body. -/
def check_try (service_name : String) (cfg : PyConfigVal) (e : ProbeEnv) :
    Except String ServiceHealth :=
  match cfg with
  | .str _ => .error "string indices must be integers"
  | .dict _ =>
    match e.outcome with
    | .failure msg => .error msg
    | .response status body =>
      if status == 200 then
        match body with
        | .error msg => .error msg
        | .ok j =>
          .ok { service := service_name, status := "healthy", timestamp := e.tStamp,
                response_time_ms := some (e.tResp - e.tStart), details := some j }
      else
        .ok { service := service_name, status := "unhealthy", timestamp := e.tStamp,
              response_time_ms := some (e.tResp - e.tStart),
              error := some ("HTTP " ++ toString status) }

/-- `check_service_health` of the ops service: the `try` body with the
`except Exception` handler that downgrades any raised error to an
`unhealthy` record, re-measuring the elapsed time inside the handler. -/
def check_service_health (service_name : String) (cfg : PyConfigVal)
    (e : ProbeEnv) : ServiceHealth :=
  match check_try service_name cfg e with
  | .ok r => r
  | .error msg =>
      { service := service_name, status := "unhealthy", timestamp := e.tStamp,
        response_time_ms := some (e.tExc - e.tStart), error := some msg }

/-- `discover_all_services`: iterate every group of the merged config,
launch one `check_service_health` per member, and gather the results in
order. -/
def discover_all_services (cfg : GroupedConfig) (envf : String → ProbeEnv) :
    List ServiceHealth :=
  (cfg.flatMap (fun g => g.2)).map (fun p => check_service_health p.1 p.2 (envf p.1))

/-- `get_system_overview` (post-authentication core): discover all services,
then `"healthy"` iff the count of healthy records equals the total count. -/
def get_system_overview (cfg : GroupedConfig) (envf : String → ProbeEnv)
    (tNow : Int) : SystemOverview :=
  let services := discover_all_services cfg envf
  let healthy_services := services.filter (fun s => s.status == "healthy")
  { overall_status :=
      if healthy_services.length = services.length then "healthy" else "degraded",
    services := services, timestamp := tNow, ai_agent_authenticated := true,
    total_services := services.length, healthy_services := healthy_services.length }

/-- `get_service_monitoring`'s lookup loop: scan the groups of the merged
config in order and take the named member of the first group that contains
the name; `none` is the 404 case. -/
def lookup_service (cfg : GroupedConfig) (service_name : String) :
    Option PyConfigVal :=
  match cfg.find? (fun g => g.2.any (fun p => p.1 == service_name)) with
  | some g => dictGet g.2 service_name
  | none => none

/-- A raw `/api/v1/register` request body before pydantic validation: every
field as optionally-present. -/
structure RawRegistration where
  service_name : Option String := none
  service_url : Option String := none
  group : Option String := none
  health_endpoint : Option String := none
  monitoring_endpoint : Option String := none
  metrics_endpoint : Option String := none
  logs_endpoint : Option String := none
  capabilities : Option (List String) := none
  metadata : Option (List (String × Json)) := none

/-- Pydantic validation of `ServiceRegistration`: the two required fields
must be present (any string value, empty included); the rest take their
declared defaults. -/
def parse_registration (r : RawRegistration) : Except String ServiceRegistration :=
  match r.service_name, r.service_url with
  | some n, some u =>
    .ok { service_name := n, service_url := u,
          group := r.group.getD "registered_services",
          health_endpoint := r.health_endpoint.getD "/health",
          monitoring_endpoint := r.monitoring_endpoint,
          metrics_endpoint := r.metrics_endpoint,
          logs_endpoint := r.logs_endpoint,
          capabilities := r.capabilities,
          metadata := r.metadata }
  | none, _ => .error "service_name: field required"
  | _, none => .error "service_url: field required"

/-- Whether pydantic validation of the registration body succeeds. -/
def parse_ok (r : RawRegistration) : Bool :=
  match parse_registration r with
  | .ok _ => true
  | .error _ => false

/-- The Loki query expression built by `get_logs` from the optional
filters, joined with `" | "`; `{service=~".+"}` when no filter is given. -/
def build_loki_query (service level : Option String) : String :=
  let query_parts :=
    (if pyTruthy service then ["\x7bservice=\"" ++ service.getD "" ++ "\"\x7d"] else [])
    ++ (if pyTruthy level then ["\x7blevel=\"" ++ level.getD "" ++ "\"\x7d"] else [])
  if query_parts.isEmpty then "\x7bservice=~\".+\"\x7d"
  else String.intercalate " | " query_parts

/-- The query parameters `get_logs` sends to Loki (`query_range`).  The
source sends ISO-formatted `start`/`end`; modelled as the underlying
timestamps in milliseconds. -/
structure LokiParamsOps where
  query : String
  start : Int
  stop : Int
  limit : Int

/-- `get_logs` (post-authentication): `hours` and `limit` are declared as
plain `Query(24)` / `Query(100)` without `ge`/`le` bounds, and the handler
applies no clamping, so the downstream query carries the caller's values
unchanged. -/
def get_logs_params (service level : Option String) (hours limit : Int)
    (now_ms : Int) : LokiParamsOps :=
  { query := build_loki_query service level,
    start := now_ms - hours * 3600 * 1000,
    stop := now_ms,
    limit := limit }

/-- Whether an association list holds a binding for key `X` (Python
`X in d`). -/
def hasKey (X : String) (d : List (String × α)) : Bool :=
  d.any (fun p => p.1 == X)

/-- The member names occurring anywhere in `DEFAULT_SERVICES_CONFIG`
(independent of the environment): the statically configured service names
plus the six field names of the flat `rss_service` block. -/
def default_member_names : List String :=
  ["backend", "frontend", "url", "health_endpoint", "monitoring_endpoint",
   "metrics_endpoint", "logs_endpoint", "register_endpoint",
   "grafana", "prometheus", "loki", "alertmanager"]

/-- No group of `cfg` has a member named `X`. -/
def NoName (X : String) (cfg : GroupedConfig) : Prop :=
  ∀ g ∈ cfg, hasKey X g.2 = false

/-- Some group of `cfg` has a member named `X`, and every group that does
binds `X` to the config `c`. -/
def NameBound (X : String) (c : OpsConfig) (cfg : GroupedConfig) : Prop :=
  (∃ g ∈ cfg, hasKey X g.2 = true) ∧
  ∀ g ∈ cfg, hasKey X g.2 = true → dictGet g.2 X = some (.dict c)

end VOps

/-! ### Association-list (Python dict) lemmas -/

namespace VOps

theorem dictInsert_map_fst (k : String) (v : α) (d : List (String × α)) :
    (dictInsert k v d).map Prod.fst =
      if d.any (fun p => p.1 == k) then d.map Prod.fst else d.map Prod.fst ++ [k] := by
  unfold dictInsert
  by_cases h : d.any (fun p => p.1 == k) = true
  · rw [if_pos h, if_pos h, List.map_map]
    apply List.map_congr_left
    intro p _
    by_cases hp : (p.1 == k) = true
    · simp only [Function.comp_apply, hp, if_pos]
      exact (eq_of_beq hp).symm
    · simp only [Function.comp_apply, hp]
      simp
  · rw [if_neg h, if_neg h, List.map_append]
    rfl

theorem dictInsert_nodup_keys {k : String} {v : α} {d : List (String × α)}
    (h : (d.map Prod.fst).Nodup) : ((dictInsert k v d).map Prod.fst).Nodup := by
  rw [dictInsert_map_fst]
  by_cases ha : d.any (fun p => p.1 == k) = true
  · rwa [if_pos ha]
  · rw [if_neg ha]
    have hk : k ∉ d.map Prod.fst := by
      intro hmem
      apply ha
      rcases List.mem_map.mp hmem with ⟨p, hp, hfst⟩
      exact List.any_eq_true.mpr ⟨p, hp, by simp [hfst]⟩
    simp [List.nodup_append, h, hk]

theorem replaceKey_of_absent (k : String) (v : α) (d : List (String × α))
    (h : d.any (fun p => p.1 == k) = false) :
    d.map (fun p => if p.1 == k then (k, v) else p) = d := by
  induction d with
  | nil => rfl
  | cons p d ih =>
    rw [List.any_cons, Bool.or_eq_false_iff] at h
    simp only [List.map_cons]
    rw [ih h.2, h.1, if_neg Bool.false_ne_true]

theorem dictInsert_cons_of_ne (k : String) (v : α) (p : String × α)
    (d : List (String × α)) (hp : (p.1 == k) = false) :
    dictInsert k v (p :: d) = p :: dictInsert k v d := by
  unfold dictInsert
  rw [List.any_cons, hp, Bool.false_or]
  cases hd : d.any (fun q => q.1 == k) with
  | true =>
    rw [if_pos rfl, if_pos rfl]
    simp only [List.map_cons]
    rw [hp, if_neg Bool.false_ne_true]
  | false =>
    rw [if_neg Bool.false_ne_true, if_neg Bool.false_ne_true, List.cons_append]

theorem dictInsert_cons_of_eq (k : String) (v : α) (p : String × α)
    (d : List (String × α)) (hp : (p.1 == k) = true) :
    dictInsert k v (p :: d) =
      (k, v) :: d.map (fun q => if q.1 == k then (k, v) else q) := by
  unfold dictInsert
  rw [List.any_cons, hp, Bool.true_or, if_pos rfl]
  simp only [List.map_cons]
  rw [hp, if_pos rfl]

theorem dictGet_cons (k : String) (p : String × α) (d : List (String × α)) :
    dictGet (p :: d) k = if p.1 == k then some p.2 else dictGet d k := by
  unfold dictGet
  rw [List.find?_cons]
  cases hp : (p.1 == k) with
  | true => rfl
  | false => rfl

theorem dictGet_map_replace_ne (k kk : String) (v : α) (d : List (String × α))
    (hne : (k == kk) = false) :
    dictGet (d.map (fun q => if q.1 == k then (k, v) else q)) kk = dictGet d kk := by
  induction d with
  | nil => rfl
  | cons q d ih =>
    simp only [List.map_cons]
    cases hq : (q.1 == k) with
    | true =>
      have h1 : q.1 = k := eq_of_beq hq
      have hq' : (q.1 == kk) = false := by rw [h1]; exact hne
      rw [if_pos rfl, dictGet_cons, dictGet_cons, hq', if_neg Bool.false_ne_true]
      dsimp only
      rw [hne, if_neg Bool.false_ne_true]
      exact ih
    | false =>
      rw [if_neg Bool.false_ne_true, dictGet_cons, dictGet_cons]
      cases hqk : (q.1 == kk) with
      | true => rw [if_pos rfl, if_pos rfl]
      | false =>
        rw [if_neg Bool.false_ne_true, if_neg Bool.false_ne_true]
        exact ih

theorem dictGet_dictInsert_self (k : String) (v : α) (d : List (String × α)) :
    dictGet (dictInsert k v d) k = some v := by
  induction d with
  | nil =>
    rw [show dictInsert k v [] = [(k, v)] from rfl, dictGet_cons]
    dsimp only
    rw [beq_self_eq_true, if_pos rfl]
  | cons p d ih =>
    cases hp : (p.1 == k) with
    | true =>
      rw [dictInsert_cons_of_eq k v p d hp, dictGet_cons]
      dsimp only
      rw [beq_self_eq_true, if_pos rfl]
    | false =>
      rw [dictInsert_cons_of_ne k v p d hp, dictGet_cons, hp,
        if_neg Bool.false_ne_true]
      exact ih

theorem dictGet_dictInsert_ne (k kk : String) (v : α) (d : List (String × α))
    (hne : kk ≠ k) : dictGet (dictInsert k v d) kk = dictGet d kk := by
  have hkk : (k == kk) = false := beq_eq_false_iff_ne.mpr (Ne.symm hne)
  induction d with
  | nil =>
    rw [show dictInsert k v [] = [(k, v)] from rfl, dictGet_cons]
    dsimp only
    rw [hkk, if_neg Bool.false_ne_true]
  | cons p d ih =>
    cases hp : (p.1 == k) with
    | true =>
      have hp' : (p.1 == kk) = false := by rw [eq_of_beq hp]; exact hkk
      rw [dictInsert_cons_of_eq k v p d hp, dictGet_cons, dictGet_cons, hp',
        if_neg Bool.false_ne_true]
      dsimp only
      rw [hkk, if_neg Bool.false_ne_true]
      exact dictGet_map_replace_ne k kk v d hkk
    | false =>
      rw [dictInsert_cons_of_ne k v p d hp, dictGet_cons, dictGet_cons]
      cases hpk : (p.1 == kk) with
      | true => rw [if_pos rfl, if_pos rfl]
      | false =>
        rw [if_neg Bool.false_ne_true, if_neg Bool.false_ne_true]
        exact ih

theorem mem_dictInsert {x : String × α} {k : String} {v : α}
    {d : List (String × α)} (hx : x ∈ dictInsert k v d) : x = (k, v) ∨ x ∈ d := by
  induction d with
  | nil => simpa [dictInsert] using hx
  | cons p d ih =>
    cases hp : (p.1 == k) with
    | true =>
      rw [dictInsert_cons_of_eq k v p d hp] at hx
      rcases List.mem_cons.mp hx with rfl | hx'
      · exact Or.inl rfl
      · rcases List.mem_map.mp hx' with ⟨q, hq, hfq⟩
        cases hqk : (q.1 == k) with
        | true =>
          rw [hqk, if_pos rfl] at hfq
          exact Or.inl hfq.symm
        | false =>
          rw [hqk, if_neg Bool.false_ne_true] at hfq
          exact Or.inr (List.mem_cons_of_mem p (hfq ▸ hq))
    | false =>
      rw [dictInsert_cons_of_ne k v p d hp] at hx
      rcases List.mem_cons.mp hx with rfl | hx'
      · exact Or.inr (List.mem_cons_self x d)
      · rcases ih hx' with h | h
        · exact Or.inl h
        · exact Or.inr (List.mem_cons_of_mem p h)

theorem eq_of_mem_dictInsert_key {x : String × α} {k : String} {v : α}
    {d : List (String × α)} (hx : x ∈ dictInsert k v d) (hkey : x.1 = k) :
    x = (k, v) := by
  induction d with
  | nil => simpa [dictInsert] using hx
  | cons p d ih =>
    cases hp : (p.1 == k) with
    | true =>
      rw [dictInsert_cons_of_eq k v p d hp] at hx
      rcases List.mem_cons.mp hx with rfl | hx'
      · rfl
      · rcases List.mem_map.mp hx' with ⟨q, hq, hfq⟩
        cases hqk : (q.1 == k) with
        | true =>
          rw [hqk, if_pos rfl] at hfq
          exact hfq.symm
        | false =>
          rw [hqk, if_neg Bool.false_ne_true] at hfq
          rw [← hfq] at hkey
          have hc : (q.1 == k) = true := beq_iff_eq.mpr hkey
          rw [hqk] at hc
          exact (Bool.false_ne_true hc).elim
    | false =>
      rw [dictInsert_cons_of_ne k v p d hp] at hx
      rcases List.mem_cons.mp hx with rfl | hx'
      · have hc : (x.1 == k) = true := beq_iff_eq.mpr hkey
        rw [hp] at hc
        exact (Bool.false_ne_true hc).elim
      · exact ih hx'

theorem mem_dictInsert_self (k : String) (v : α) (d : List (String × α)) :
    (k, v) ∈ dictInsert k v d := by
  induction d with
  | nil => simp [dictInsert]
  | cons p d ih =>
    cases hp : (p.1 == k) with
    | true =>
      rw [dictInsert_cons_of_eq k v p d hp]
      exact List.mem_cons_self _ _
    | false =>
      rw [dictInsert_cons_of_ne k v p d hp]
      exact List.mem_cons_of_mem p ih

theorem mem_dictInsert_of_ne {x : String × α} {k : String} {v : α}
    {d : List (String × α)} (hx : x ∈ d) (hkey : x.1 ≠ k) :
    x ∈ dictInsert k v d := by
  induction d with
  | nil => cases hx
  | cons p d ih =>
    cases hp : (p.1 == k) with
    | true =>
      rw [dictInsert_cons_of_eq k v p d hp]
      rcases List.mem_cons.mp hx with rfl | hx'
      · exact absurd (eq_of_beq hp) hkey
      · apply List.mem_cons_of_mem
        have hfix : (fun q => if q.1 == k then (k, v) else q) x = x := by
          show (if x.1 == k then (k, v) else x) = x
          rw [beq_eq_false_iff_ne.mpr hkey, if_neg Bool.false_ne_true]
        rw [← hfix]
        exact List.mem_map_of_mem _ hx'
    | false =>
      rw [dictInsert_cons_of_ne k v p d hp]
      rcases List.mem_cons.mp hx with rfl | hx'
      · exact List.mem_cons_self x _
      · exact List.mem_cons_of_mem p (ih hx')

theorem mem_of_dictGet {k : String} {v : α} {d : List (String × α)}
    (h : dictGet d k = some v) : (k, v) ∈ d := by
  induction d with
  | nil => simp [dictGet] at h
  | cons p d ih =>
    rw [dictGet_cons] at h
    cases hp : (p.1 == k) with
    | true =>
      rw [hp, if_pos rfl] at h
      obtain ⟨a, b⟩ := p
      obtain rfl : a = k := eq_of_beq hp
      obtain rfl : b = v := Option.some.inj h
      exact List.mem_cons_self _ _
    | false =>
      rw [hp, if_neg Bool.false_ne_true] at h
      exact List.mem_cons_of_mem p (ih h)

theorem dictGet_of_mem_nodup {k : String} {v : α} {d : List (String × α)}
    (hnd : (d.map Prod.fst).Nodup) (hmem : (k, v) ∈ d) : dictGet d k = some v := by
  induction d with
  | nil => cases hmem
  | cons p d ih =>
    rw [List.map_cons, List.nodup_cons] at hnd
    rw [dictGet_cons]
    rcases List.mem_cons.mp hmem with h | h
    · rw [← h]
      dsimp only
      rw [beq_self_eq_true, if_pos rfl]
    · have hp : (p.1 == k) = false := by
        apply beq_eq_false_iff_ne.mpr
        intro hc
        apply hnd.1
        rw [hc]
        exact List.mem_map_of_mem Prod.fst h
      rw [hp, if_neg Bool.false_ne_true]
      exact ih hnd.2 h

theorem filter_key_length_one {k : String} {v : α} {d : List (String × α)}
    (hnd : (d.map Prod.fst).Nodup) (hmem : (k, v) ∈ d) :
    (d.filter (fun p => p.1 == k)).length = 1 := by
  induction d with
  | nil => cases hmem
  | cons p d ih =>
    rw [List.map_cons, List.nodup_cons] at hnd
    rw [List.filter_cons]
    rcases List.mem_cons.mp hmem with h | h
    · have hk : p.1 = k := by rw [← h]
      have hp : (p.1 == k) = true := beq_iff_eq.mpr hk
      rw [hp, if_pos rfl]
      have hnil : d.filter (fun q => q.1 == k) = [] := by
        apply List.filter_eq_nil_iff.mpr
        intro q hq hc
        apply hnd.1
        rw [hk, ← eq_of_beq hc]
        exact List.mem_map_of_mem Prod.fst hq
      rw [hnil]
      rfl
    · have hkmem : k ∈ d.map Prod.fst := List.mem_map_of_mem Prod.fst h
      have hp : (p.1 == k) = false := by
        apply beq_eq_false_iff_ne.mpr
        intro hc
        rw [hc] at hnd
        exact hnd.1 hkmem
      rw [hp, if_neg Bool.false_ne_true]
      exact ih hnd.2 h

theorem hasKey_map_replace {n X : String} {v : α} (d : List (String × α))
    (hnX : (n == X) = false) :
    (d.map (fun q => if q.1 == n then (n, v) else q)).any (fun p => p.1 == X) =
      d.any (fun p => p.1 == X) := by
  induction d with
  | nil => rfl
  | cons q d ih =>
    simp only [List.map_cons, List.any_cons]
    cases hq : (q.1 == n) with
    | true =>
      have hqX : (q.1 == X) = false := by rw [eq_of_beq hq]; exact hnX
      rw [if_pos rfl]
      show ((n == X) || _) = ((q.1 == X) || _)
      rw [hnX, hqX, ih]
    | false =>
      rw [if_neg Bool.false_ne_true, ih]

theorem hasKey_dictInsert_ne {n X : String} {v : α} (d : List (String × α))
    (hnX : (n == X) = false) :
    hasKey X (dictInsert n v d) = hasKey X d := by
  unfold hasKey
  induction d with
  | nil =>
    rw [show dictInsert n v [] = [(n, v)] from rfl]
    simp only [List.any_cons, List.any_nil]
    show ((n == X) || false) = false
    rw [hnX]
    rfl
  | cons p d ih =>
    cases hp : (p.1 == n) with
    | true =>
      rw [dictInsert_cons_of_eq n v p d hp]
      simp only [List.any_cons]
      have hpX : (p.1 == X) = false := by rw [eq_of_beq hp]; exact hnX
      show ((n == X) || _) = ((p.1 == X) || _)
      rw [hnX, hpX, hasKey_map_replace d hnX]
    | false =>
      rw [dictInsert_cons_of_ne n v p d hp]
      simp only [List.any_cons]
      rw [ih]

theorem hasKey_dictInsert_self (k : String) (v : α) (d : List (String × α)) :
    hasKey k (dictInsert k v d) = true :=
  List.any_eq_true.mpr ⟨(k, v), mem_dictInsert_self k v d, beq_self_eq_true k⟩

theorem lookup_service_of_NameBound {X : String} {c : OpsConfig}
    {cfg : GroupedConfig} (h : NameBound X c cfg) :
    lookup_service cfg X = some (.dict c) := by
  obtain ⟨⟨g0, hg0, hkey0⟩, hall⟩ := h
  unfold lookup_service
  cases hfind : cfg.find? (fun g => g.2.any (fun p => p.1 == X)) with
  | none =>
    rw [List.find?_eq_none] at hfind
    exact absurd hkey0 (by simpa [hasKey] using hfind g0 hg0)
  | some g =>
    have hmem := List.mem_of_find?_eq_some hfind
    have hkey := List.find?_some hfind
    exact hall g hmem (by simpa [hasKey] using hkey)

theorem merge_step_nodup {cfg : GroupedConfig} {p : String × RegInfo}
    (h : (cfg.map Prod.fst).Nodup) : ((merge_step cfg p).map Prod.fst).Nodup :=
  dictInsert_nodup_keys h

theorem merge_step_preserves_NoName {X : String} {cfg : GroupedConfig}
    {p : String × RegInfo} (hpX : p.1 ≠ X) (h : NoName X cfg) :
    NoName X (merge_step cfg p) := by
  intro g hg
  unfold merge_step at hg
  rcases mem_dictInsert hg with rfl | hg'
  · show hasKey X (dictInsert p.1 (PyConfigVal.dict p.2.config)
      ((dictGet cfg ((p.2.group).getD "registered_services")).getD [])) = false
    rw [hasKey_dictInsert_ne _ (beq_eq_false_iff_ne.mpr hpX)]
    cases hget : dictGet cfg ((p.2.group).getD "registered_services") with
    | none => rfl
    | some i => simpa using h _ (mem_of_dictGet hget)
  · exact h g hg'

theorem merge_step_establishes_NameBound {X : String} {c : OpsConfig}
    {cfg : GroupedConfig} {p : String × RegInfo} (hpX : p.1 = X)
    (hc : p.2.config = c) (h : NoName X cfg) :
    NameBound X c (merge_step cfg p) := by
  unfold merge_step
  constructor
  · refine ⟨_, mem_dictInsert_self _ _ cfg, ?_⟩
    show hasKey X (dictInsert p.1 (PyConfigVal.dict p.2.config) _) = true
    rw [hpX]
    exact hasKey_dictInsert_self X _ _
  · intro g hg hkey
    rcases mem_dictInsert hg with rfl | hg'
    · show dictGet (dictInsert p.1 (PyConfigVal.dict p.2.config) _) X = some (PyConfigVal.dict c)
      rw [hpX, hc]
      exact dictGet_dictInsert_self X _ _
    · rw [h g hg'] at hkey
      exact (Bool.false_ne_true hkey).elim

theorem merge_step_preserves_NameBound {X : String} {c : OpsConfig}
    {cfg : GroupedConfig} {p : String × RegInfo}
    (hp : p.1 = X → p.2.config = c) (hnd : (cfg.map Prod.fst).Nodup)
    (h : NameBound X c cfg) : NameBound X c (merge_step cfg p) := by
  by_cases hpX : p.1 = X
  · unfold merge_step
    constructor
    · refine ⟨_, mem_dictInsert_self _ _ cfg, ?_⟩
      show hasKey X (dictInsert p.1 (PyConfigVal.dict p.2.config) _) = true
      rw [hpX]
      exact hasKey_dictInsert_self X _ _
    · intro g hg hkey
      rcases mem_dictInsert hg with rfl | hg'
      · show dictGet (dictInsert p.1 (PyConfigVal.dict p.2.config) _) X = some (PyConfigVal.dict c)
        rw [hpX, hp hpX]
        exact dictGet_dictInsert_self X _ _
      · exact h.2 g hg' hkey
  · obtain ⟨⟨g0, hg0, hkey0⟩, hall⟩ := h
    unfold merge_step
    constructor
    · by_cases hgG : g0.1 = (p.2.group).getD "registered_services"
      · refine ⟨_, mem_dictInsert_self _ _ cfg, ?_⟩
        show hasKey X (dictInsert p.1 (PyConfigVal.dict p.2.config)
          ((dictGet cfg ((p.2.group).getD "registered_services")).getD [])) = true
        rw [hasKey_dictInsert_ne _ (beq_eq_false_iff_ne.mpr hpX)]
        have hget : dictGet cfg ((p.2.group).getD "registered_services") = some g0.2 := by
          rw [← hgG]
          exact dictGet_of_mem_nodup hnd (by simpa using hg0)
        rw [hget]
        exact hkey0
      · exact ⟨g0, mem_dictInsert_of_ne hg0 hgG, hkey0⟩
    · intro g hg hkey
      rcases mem_dictInsert hg with rfl | hg'
      · have hkey2 : hasKey X (dictInsert p.1 (PyConfigVal.dict p.2.config)
            ((dictGet cfg ((p.2.group).getD "registered_services")).getD [])) = true := hkey
        rw [hasKey_dictInsert_ne _ (beq_eq_false_iff_ne.mpr hpX)] at hkey2
        show dictGet (dictInsert p.1 (PyConfigVal.dict p.2.config)
          ((dictGet cfg ((p.2.group).getD "registered_services")).getD [])) X =
          some (PyConfigVal.dict c)
        rw [dictGet_dictInsert_ne _ X _ _ (fun hXp => hpX hXp.symm)]
        cases hget : dictGet cfg ((p.2.group).getD "registered_services") with
        | none =>
          rw [hget] at hkey2
          simp [hasKey] at hkey2
        | some i =>
          rw [hget] at hkey2
          show dictGet i X = some (PyConfigVal.dict c)
          exact hall _ (mem_of_dictGet hget) (by simpa using hkey2)
      · exact hall g hg' hkey

theorem foldl_merge_NameBound {X : String} {c : OpsConfig}
    (rs : List (String × RegInfo)) :
    ∀ cfg : GroupedConfig, (cfg.map Prod.fst).Nodup →
      (∀ p ∈ rs, p.1 = X → p.2.config = c) →
      (NameBound X c cfg ∨ (NoName X cfg ∧ ∃ p ∈ rs, p.1 = X)) →
      NameBound X c (rs.foldl merge_step cfg) := by
  induction rs with
  | nil =>
    intro cfg _ _ h
    rcases h with h | ⟨_, p, hp, _⟩
    · exact h
    · cases hp
  | cons p rs ih =>
    intro cfg hnd hrs h
    rw [List.foldl_cons]
    apply ih (merge_step cfg p) (merge_step_nodup hnd)
      (fun q hq => hrs q (List.mem_cons_of_mem p hq))
    rcases h with h | ⟨hno, q, hq, hqX⟩
    · exact Or.inl (merge_step_preserves_NameBound
        (hrs p (List.mem_cons_self p rs)) hnd h)
    · by_cases hpX : p.1 = X
      · exact Or.inl (merge_step_establishes_NameBound hpX
          (hrs p (List.mem_cons_self p rs) hpX) hno)
      · refine Or.inr ⟨merge_step_preserves_NoName hpX hno, ?_⟩
        rcases List.mem_cons.mp hq with rfl | hq'
        · exact absurd hqX hpX
        · exact ⟨q, hq', hqX⟩

theorem default_config_nodup_groups (env : EnvOps) :
    ((DEFAULT_SERVICES_CONFIG env).map Prod.fst).Nodup := by
  show (["main_app", "rss_service", "ops_services"] : List String).Nodup
  decide

theorem default_config_NoName {X : String} (env : EnvOps)
    (hX : X ∉ default_member_names) : NoName X (DEFAULT_SERVICES_CONFIG env) := by
  simp only [default_member_names, List.mem_cons, not_or, List.not_mem_nil,
    not_false_iff, and_true] at hX
  obtain ⟨h1, h2, h3, h4, h5, h6, h7, h8, h9, h10, h11, h12⟩ := hX
  intro g hg
  simp only [DEFAULT_SERVICES_CONFIG, List.mem_cons, List.not_mem_nil, or_false] at hg
  rcases hg with rfl | rfl | rfl
  · show hasKey X [("backend", _), ("frontend", _)] = false
    simp [hasKey, beq_eq_false_iff_ne, Ne.symm h1, Ne.symm h2]
  · show hasKey X [("url", _), ("health_endpoint", _), ("monitoring_endpoint", _),
      ("metrics_endpoint", _), ("logs_endpoint", _), ("register_endpoint", _)] = false
    simp [hasKey, beq_eq_false_iff_ne, Ne.symm h3, Ne.symm h4, Ne.symm h5,
      Ne.symm h6, Ne.symm h7, Ne.symm h8]
  · show hasKey X [("grafana", _), ("prometheus", _), ("loki", _),
      ("alertmanager", _)] = false
    simp [hasKey, beq_eq_false_iff_ne, Ne.symm h9, Ne.symm h10, Ne.symm h11,
      Ne.symm h12]

end VOps


/-! ### Prober helper lemmas -/

theorem gw_check_service (n : String) (cfg : MonGW.EndpointConfigGW) (e : ProbeEnv) :
    (MonGW.check_service_health n cfg e).service = n := by
  unfold MonGW.check_service_health MonGW.check_try
  cases cfg.health with
  | none => rfl
  | some hp =>
    cases e.outcome with
    | failure m => rfl
    | response s b =>
      cases hs : (s == 200) with
      | true => simp [hs]
      | false => simp [hs]

theorem ops_check_service (n : String) (cfg : VOps.PyConfigVal) (e : ProbeEnv) :
    (VOps.check_service_health n cfg e).service = n := by
  unfold VOps.check_service_health VOps.check_try
  cases cfg with
  | str s => rfl
  | dict c =>
    cases e.outcome with
    | failure m => rfl
    | response s b =>
      cases hs : (s == 200) with
      | true =>
        cases b with
        | ok j => simp [hs]
        | error m => simp [hs]
      | false => simp [hs]

theorem verify_gw_eq (c p : Option String) :
    MonGW.verify_ai_agent_auth c p =
      (pyTruthy c && pyTruthy p &&
        (pyStrip (p.getD "") == pyStrip (c.getD ""))) := by
  unfold MonGW.verify_ai_agent_auth
  cases hA : pyTruthy c <;> cases hB : pyTruthy p <;>
    cases hC : (pyStrip (p.getD "") == pyStrip (c.getD "")) <;>
      simp [hA, hB, hC]

theorem verify_ops_eq (c p : Option String) :
    VOps.verify_ai_agent_auth c p =
      (pyTruthy c && pyTruthy p && (p.getD "" == c.getD "")) := by
  unfold VOps.verify_ai_agent_auth
  cases hA : pyTruthy c <;> cases hB : pyTruthy p <;>
    cases hC : (p.getD "" == c.getD "") <;> simp [hA, hB, hC]

/-- C1 — corrected.  The two variants disagree: the viralogic-ops
`verify_ai_agent_auth` allows exactly on exact (case-sensitive) equality of
the presented and configured keys, but the monitoring-gateway variant
compares the keys after `str.strip()` on both sides, so keys differing only
in leading/trailing whitespace are allowed.  In both variants a missing or
falsy configured key and a missing or empty presented key are denied. -/
theorem claim_C1 :
    ∀ c p : Option String,
    (MonGW.verify_ai_agent_auth c p = true ↔
      (pyTruthy c = true ∧ pyTruthy p = true ∧
       pyStrip (p.getD "") = pyStrip (c.getD ""))) ∧
    (VOps.verify_ai_agent_auth c p = true ↔
      (pyTruthy c = true ∧ pyTruthy p = true ∧ p.getD "" = c.getD "")) := by
  intro c p
  constructor
  · rw [verify_gw_eq]
    simp [Bool.and_eq_true, beq_iff_eq, and_assoc]
  · rw [verify_ops_eq]
    simp [Bool.and_eq_true, beq_iff_eq, and_assoc]

/-- C1 counterexample: with configured key `"secret"`, the presented key
`"secret "` (one trailing space — a one-character difference) is *allowed*
by the monitoring-gateway variant, where the claim demands deny. -/
theorem claim_C1_counterexample :
    MonGW.verify_ai_agent_auth (some "secret") (some "secret ") = true ∧
    ("secret " : String) ≠ "secret" := by
  constructor
  · rfl
  · decide

theorem overall_gw_healthy_iff (L : List MonGW.HealthStatus) :
    ((if (L.filter (fun s => s.status != "healthy")).isEmpty then "healthy"
        else "degraded") = "healthy") ↔ ∀ r ∈ L, r.status = "healthy" := by
  by_cases h : (L.filter (fun s => s.status != "healthy")).isEmpty = true
  · rw [if_pos h]
    rw [List.isEmpty_iff, List.filter_eq_nil_iff] at h
    constructor
    · intro _ r hr
      have := h r hr
      simpa using this
    · intro _
      rfl
  · rw [if_neg h]
    constructor
    · intro hc
      exact absurd hc (by decide)
    · intro hall
      exfalso
      apply h
      rw [List.isEmpty_iff, List.filter_eq_nil_iff]
      intro r hr
      simp [hall r hr]

theorem overall_ops_healthy_iff (L : List VOps.ServiceHealth) :
    ((if (L.filter (fun s => s.status == "healthy")).length = L.length
        then "healthy" else "degraded") = "healthy") ↔
      ∀ r ∈ L, r.status = "healthy" := by
  by_cases h : (L.filter (fun s => s.status == "healthy")).length = L.length
  · rw [if_pos h]
    have heq : L.filter (fun s => s.status == "healthy") = L :=
      (L.filter_sublist).eq_of_length h
    constructor
    · intro _ r hr
      have hr2 : r ∈ L.filter (fun s => s.status == "healthy") := by rw [heq]; exact hr
      exact eq_of_beq ((List.mem_filter.mp hr2).2)
    · intro _
      rfl
  · rw [if_neg h]
    constructor
    · intro hc
      exact absurd hc (by decide)
    · intro hall
      exfalso
      apply h
      rw [List.filter_eq_self.mpr (fun r hr => beq_iff_eq.mpr (hall r hr))]

/-- C2 — confirmed.  In both variants the aggregation reports
`overall_status = "healthy"` iff every returned record has
`status = "healthy"`, and in every other case reports `"degraded"` (those are
the only two possible values). -/
theorem claim_C2 :
    ∀ (table : List (String × MonGW.EndpointConfigGW)) (envf : String → ProbeEnv)
      (t : Int) (cfg : VOps.GroupedConfig) (envf2 : String → ProbeEnv) (t2 : Int),
    ((MonGW.get_monitoring_overview table envf t).overall_status = "healthy" ↔
      ∀ r ∈ (MonGW.get_monitoring_overview table envf t).services,
        r.status = "healthy") ∧
    ((MonGW.get_monitoring_overview table envf t).overall_status = "healthy" ∨
     (MonGW.get_monitoring_overview table envf t).overall_status = "degraded") ∧
    ((VOps.get_system_overview cfg envf2 t2).overall_status = "healthy" ↔
      ∀ r ∈ (VOps.get_system_overview cfg envf2 t2).services,
        r.status = "healthy") ∧
    ((VOps.get_system_overview cfg envf2 t2).overall_status = "healthy" ∨
     (VOps.get_system_overview cfg envf2 t2).overall_status = "degraded") := by
  intro table envf t cfg envf2 t2
  refine ⟨?_, ?_, ?_, ?_⟩
  · simp only [MonGW.get_monitoring_overview]
    exact overall_gw_healthy_iff _
  · simp only [MonGW.get_monitoring_overview]
    by_cases h : (((table.filter (fun p => p.2.health.isSome)).map
        (fun p => MonGW.check_service_health p.1 p.2 (envf p.1))).filter
          (fun s => s.status != "healthy")).isEmpty = true
    · exact Or.inl (by rw [if_pos h])
    · exact Or.inr (by rw [if_neg h])
  · simp only [VOps.get_system_overview]
    exact overall_ops_healthy_iff _
  · simp only [VOps.get_system_overview]
    by_cases h : ((VOps.discover_all_services cfg envf2).filter
        (fun s => s.status == "healthy")).length =
        (VOps.discover_all_services cfg envf2).length
    · exact Or.inl (by rw [if_pos h])
    · exact Or.inr (by rw [if_neg h])

/-- C3 — confirmed.  Full classification of both probes, for every probe
outcome: a well-formed HTTP 200 yields a `healthy` record (with the parsed
JSON body stored in `details` in the ops variant, whose record carries that
field; the gateway record has no `details` field and its probe never reads
the body); any other status `s` yields `unhealthy` with
`error = "HTTP " ++ s`; a transport failure — and, in the ops variant, a 200
response whose body fails to parse as JSON (malformed response) — yields
`unhealthy` with `error` set to the failure's description (non-empty whenever
the description is) and `response_time_ms` the elapsed time measured at the
point of failure. -/
theorem claim_C3 :
    ∀ (nm base hp : String) (mtr mon : Option String) (c : VOps.OpsConfig)
      (tS tR tE tT : Int) (s : Nat) (b : Except String Json) (j : Json)
      (msg : String),
    (MonGW.check_service_health nm ⟨base, some hp, mtr, mon⟩
        ⟨.response 200 b, tS, tR, tE, tT⟩ =
      { service := nm, status := "healthy", timestamp := tT,
        response_time_ms := some (tR - tS), error := none }) ∧
    (s ≠ 200 →
      MonGW.check_service_health nm ⟨base, some hp, mtr, mon⟩
          ⟨.response s b, tS, tR, tE, tT⟩ =
        { service := nm, status := "unhealthy", timestamp := tT,
          response_time_ms := some (tR - tS),
          error := some ("HTTP " ++ toString s) }) ∧
    (MonGW.check_service_health nm ⟨base, some hp, mtr, mon⟩
        ⟨.failure msg, tS, tR, tE, tT⟩ =
      { service := nm, status := "unhealthy", timestamp := tT,
        response_time_ms := some (tE - tS), error := some msg }) ∧
    (msg ≠ "" →
      (MonGW.check_service_health nm ⟨base, some hp, mtr, mon⟩
          ⟨.failure msg, tS, tR, tE, tT⟩).error ≠ some "") ∧
    (VOps.check_service_health nm (.dict c)
        ⟨.response 200 (.ok j), tS, tR, tE, tT⟩ =
      { service := nm, status := "healthy", timestamp := tT,
        response_time_ms := some (tR - tS), error := none, details := some j }) ∧
    (s ≠ 200 →
      VOps.check_service_health nm (.dict c) ⟨.response s b, tS, tR, tE, tT⟩ =
        { service := nm, status := "unhealthy", timestamp := tT,
          response_time_ms := some (tR - tS),
          error := some ("HTTP " ++ toString s), details := none }) ∧
    (VOps.check_service_health nm (.dict c)
        ⟨.response 200 (.error msg), tS, tR, tE, tT⟩ =
      { service := nm, status := "unhealthy", timestamp := tT,
        response_time_ms := some (tE - tS), error := some msg, details := none }) ∧
    (VOps.check_service_health nm (.dict c) ⟨.failure msg, tS, tR, tE, tT⟩ =
      { service := nm, status := "unhealthy", timestamp := tT,
        response_time_ms := some (tE - tS), error := some msg, details := none }) ∧
    (msg ≠ "" →
      (VOps.check_service_health nm (.dict c)
          ⟨.failure msg, tS, tR, tE, tT⟩).error ≠ some "") := by
  intro nm base hp mtr mon c tS tR tE tT s b j msg
  refine ⟨rfl, ?_, rfl, ?_, rfl, ?_, rfl, rfl, ?_⟩
  · intro hs
    have hb : (s == 200) = false := beq_eq_false_iff_ne.mpr hs
    simp [MonGW.check_service_health, MonGW.check_try, hb]
  · intro hmsg
    simp [MonGW.check_service_health, MonGW.check_try]
    exact hmsg
  · intro hs
    have hb : (s == 200) = false := beq_eq_false_iff_ne.mpr hs
    simp [VOps.check_service_health, VOps.check_try, hb]
  · intro hmsg
    simp [VOps.check_service_health, VOps.check_try]
    exact hmsg

/-- C3 witness: concrete instances discharging every hypothesis of
`claim_C3` — HTTP 503 and a connection-refused failure with a non-empty
message, in both variants. -/
theorem claim_C3_witness :
    (MonGW.check_service_health "backend" ⟨"http://b", some "/health", none, none⟩
        ⟨.response 503 (.ok .null), 0, 5, 7, 9⟩ =
      { service := "backend", status := "unhealthy", timestamp := 9,
        response_time_ms := some 5, error := some "HTTP 503" }) ∧
    ((MonGW.check_service_health "backend" ⟨"http://b", some "/health", none, none⟩
        ⟨.failure "Connection refused", 0, 5, 7, 9⟩).error ≠ some "") ∧
    (VOps.check_service_health "backend" (.dict { url := "http://b" })
        ⟨.response 503 (.ok .null), 0, 5, 7, 9⟩ =
      { service := "backend", status := "unhealthy", timestamp := 9,
        response_time_ms := some 5, error := some "HTTP 503", details := none }) ∧
    ((VOps.check_service_health "backend" (.dict { url := "http://b" })
        ⟨.failure "Connection refused", 0, 5, 7, 9⟩).error ≠ some "") := by
  have h := claim_C3 "backend" "http://b" "/health" none none { url := "http://b" }
    0 5 7 9 503 (.ok .null) .null "Connection refused"
  exact ⟨h.2.1 (by decide), h.2.2.2.1 (by decide),
    h.2.2.2.2.2.1 (by decide), h.2.2.2.2.2.2.2.2 (by decide)⟩

/-- C4 — confirmed.  Both probes are total: whatever the `try` body does,
the caller receives a `HealthRecord`.  When the body raises (transport
failure, missing config key, malformed JSON on a 200), the handler returns
an `unhealthy` record carrying the raised message as `error` instead of
propagating the fault; when the body returns a record, that record is
returned unchanged. -/
theorem claim_C4 :
    ∀ (nm : String) (cfg : MonGW.EndpointConfigGW) (cOps : VOps.PyConfigVal)
      (e1 e2 e3 e4 : ProbeEnv) (msg msg2 : String) (r : MonGW.HealthStatus)
      (r2 : VOps.ServiceHealth),
    (MonGW.check_try nm cfg e1 = .error msg →
      MonGW.check_service_health nm cfg e1 =
        { service := nm, status := "unhealthy", timestamp := e1.tStamp,
          response_time_ms := some (e1.tExc - e1.tStart), error := some msg }) ∧
    (MonGW.check_try nm cfg e2 = .ok r →
      MonGW.check_service_health nm cfg e2 = r) ∧
    (VOps.check_try nm cOps e3 = .error msg2 →
      VOps.check_service_health nm cOps e3 =
        { service := nm, status := "unhealthy", timestamp := e3.tStamp,
          response_time_ms := some (e3.tExc - e3.tStart), error := some msg2,
          details := none }) ∧
    (VOps.check_try nm cOps e4 = .ok r2 →
      VOps.check_service_health nm cOps e4 = r2) := by
  intro nm cfg cOps e1 e2 e3 e4 msg msg2 r r2
  refine ⟨?_, ?_, ?_, ?_⟩
  · intro h
    unfold MonGW.check_service_health
    rw [h]
  · intro h
    unfold MonGW.check_service_health
    rw [h]
  · intro h
    unfold VOps.check_service_health
    rw [h]
  · intro h
    unfold VOps.check_service_health
    rw [h]

/-- C4 witness: concrete failing and succeeding probe environments
discharging every hypothesis of `claim_C4`. -/
theorem claim_C4_witness :
    (MonGW.check_service_health "backend" ⟨"http://b", some "/health", none, none⟩
        ⟨.failure "boom", 0, 5, 7, 9⟩ =
      { service := "backend", status := "unhealthy", timestamp := 9,
        response_time_ms := some 7, error := some "boom" }) ∧
    (MonGW.check_service_health "backend" ⟨"http://b", some "/health", none, none⟩
        ⟨.response 200 (.ok .null), 0, 5, 7, 9⟩ =
      { service := "backend", status := "healthy", timestamp := 9,
        response_time_ms := some 5, error := none }) ∧
    (VOps.check_service_health "backend" (.dict { url := "http://b" })
        ⟨.failure "boom", 0, 5, 7, 9⟩ =
      { service := "backend", status := "unhealthy", timestamp := 9,
        response_time_ms := some 7, error := some "boom", details := none }) ∧
    (VOps.check_service_health "backend" (.dict { url := "http://b" })
        ⟨.response 200 (.ok .null), 0, 5, 7, 9⟩ =
      { service := "backend", status := "healthy", timestamp := 9,
        response_time_ms := some 5, error := none, details := some .null }) := by
  have h := claim_C4 "backend" ⟨"http://b", some "/health", none, none⟩
    (.dict { url := "http://b" })
    ⟨.failure "boom", 0, 5, 7, 9⟩ ⟨.response 200 (.ok .null), 0, 5, 7, 9⟩
    ⟨.failure "boom", 0, 5, 7, 9⟩ ⟨.response 200 (.ok .null), 0, 5, 7, 9⟩
    "boom" "boom"
    { service := "backend", status := "healthy", timestamp := 9,
      response_time_ms := some 5, error := none }
    { service := "backend", status := "healthy", timestamp := 9,
      response_time_ms := some 5, error := none, details := some .null }
  exact ⟨h.1 rfl, h.2.1 rfl, h.2.2.1 rfl, h.2.2.2 rfl⟩

/-- C10 — confirmed.  In every branch of both probes — success, non-200,
transport failure, malformed config value, malformed body — the returned
record's `response_time_ms` is non-null, and it is non-negative whenever the
wall clock did not run backwards between the probe's start and the later
readings. -/
theorem claim_C10 :
    ∀ (nm : String) (cfg : MonGW.EndpointConfigGW) (cOps : VOps.PyConfigVal)
      (e : ProbeEnv),
    e.tStart ≤ e.tResp → e.tStart ≤ e.tExc →
    (∃ v, (MonGW.check_service_health nm cfg e).response_time_ms = some v ∧
      0 ≤ v) ∧
    (∃ v, (VOps.check_service_health nm cOps e).response_time_ms = some v ∧
      0 ≤ v) := by
  intro nm cfg cOps e h1 h2
  obtain ⟨o, tS, tR, tE, tT⟩ := e
  simp only at h1 h2
  constructor
  · unfold MonGW.check_service_health MonGW.check_try
    cases cfg.health with
    | none => exact ⟨tE - tS, rfl, by omega⟩
    | some hp =>
      cases o with
      | failure m => exact ⟨tE - tS, rfl, by omega⟩
      | response s b =>
        cases hs : (s == 200) with
        | true => exact ⟨tR - tS, by simp [hs], by omega⟩
        | false => exact ⟨tR - tS, by simp [hs], by omega⟩
  · unfold VOps.check_service_health VOps.check_try
    cases cOps with
    | str sv => exact ⟨tE - tS, rfl, by omega⟩
    | dict c =>
      cases o with
      | failure m => exact ⟨tE - tS, rfl, by omega⟩
      | response s b =>
        cases hs : (s == 200) with
        | true =>
          cases b with
          | ok j => exact ⟨tR - tS, by simp [hs], by omega⟩
          | error m => exact ⟨tE - tS, by simp [hs], by omega⟩
        | false => exact ⟨tR - tS, by simp [hs], by omega⟩

/-- C10 witness: a concrete probe environment with a monotone clock
discharging the hypotheses of `claim_C10`. -/
theorem claim_C10_witness :
    (∃ v, (MonGW.check_service_health "backend"
        ⟨"http://b", some "/health", none, none⟩
        ⟨.failure "boom", 0, 5, 7, 9⟩).response_time_ms = some v ∧ 0 ≤ v) ∧
    (∃ v, (VOps.check_service_health "backend" (.dict { url := "http://b" })
        ⟨.failure "boom", 0, 5, 7, 9⟩).response_time_ms = some v ∧ 0 ≤ v) :=
  claim_C10 "backend" ⟨"http://b", some "/health", none, none⟩
    (.dict { url := "http://b" }) ⟨.failure "boom", 0, 5, 7, 9⟩
    (by decide) (by decide)

/-- C5 — confirmed.  One aggregation pass issues exactly one probe per
directory entry and returns their records in order: the ops variant probes
every member of every group of the snapshot (one record per entry, each
`service` field the entry's name); the gateway probes every table entry with
a `"health"` key — which is every entry of its static `SERVICE_ENDPOINTS`
table, for every environment. -/
theorem claim_C5 :
    ∀ (cfg : VOps.GroupedConfig) (envf : String → ProbeEnv)
      (table : List (String × MonGW.EndpointConfigGW))
      (envf2 : String → ProbeEnv) (t : Int),
    ((VOps.discover_all_services cfg envf).length =
        (cfg.flatMap (fun g => g.2)).length ∧
     (VOps.discover_all_services cfg envf).map (fun r => r.service) =
        (cfg.flatMap (fun g => g.2)).map (fun p => p.1)) ∧
    ((∀ p ∈ table, p.2.health.isSome = true) →
      ((MonGW.get_monitoring_overview table envf2 t).services.length =
          table.length ∧
       (MonGW.get_monitoring_overview table envf2 t).services.map
          (fun r => r.service) = table.map (fun p => p.1))) ∧
    (∀ envg : MonGW.EnvGW, ∀ p ∈ MonGW.SERVICE_ENDPOINTS envg,
      p.2.health.isSome = true) := by
  intro cfg envf table envf2 t
  refine ⟨⟨?_, ?_⟩, ?_, ?_⟩
  · unfold VOps.discover_all_services
    rw [List.length_map]
  · unfold VOps.discover_all_services
    rw [List.map_map]
    exact List.map_congr_left
      (fun p _ => ops_check_service p.1 p.2 (envf p.1))
  · intro hall
    have hfix : table.filter (fun p => p.2.health.isSome) = table :=
      List.filter_eq_self.mpr hall
    simp only [MonGW.get_monitoring_overview]
    rw [hfix]
    constructor
    · rw [List.length_map]
    · rw [List.map_map]
      exact List.map_congr_left
        (fun p _ => gw_check_service p.1 p.2 (envf2 p.1))
  · intro envg p hp
    simp only [MonGW.SERVICE_ENDPOINTS, List.mem_cons, List.not_mem_nil,
      or_false] at hp
    rcases hp with rfl | rfl | rfl | rfl | rfl <;> rfl

/-- C5 witness: the gateway's actual static table (default environment)
satisfies the every-entry-has-a-health-path hypothesis, so a probe pass over
it yields one record per entry, named after the entries. -/
theorem claim_C5_witness :
    (MonGW.get_monitoring_overview (MonGW.SERVICE_ENDPOINTS {})
        (fun _ => ⟨.response 200 (.ok .null), 0, 0, 0, 0⟩) 0).services.length =
      (MonGW.SERVICE_ENDPOINTS {}).length ∧
    (MonGW.get_monitoring_overview (MonGW.SERVICE_ENDPOINTS {})
        (fun _ => ⟨.response 200 (.ok .null), 0, 0, 0, 0⟩) 0).services.map
      (fun r => r.service) = (MonGW.SERVICE_ENDPOINTS {}).map (fun p => p.1) := by
  have h := claim_C5 [] (fun _ => ⟨.response 200 (.ok .null), 0, 0, 0, 0⟩)
    (MonGW.SERVICE_ENDPOINTS {})
    (fun _ => ⟨.response 200 (.ok .null), 0, 0, 0, 0⟩) 0
  exact h.2.1 (h.2.2 {})

/-- C6 — corrected.  The dynamic registry (`REGISTERED_SERVICES`) does hold
at most one entry per name (last-write-wins keyed by name), and every group
of a merged snapshot holds at most one member per name; but a snapshot CAN
hold two same-named entries in different groups, because the defaults are
kept alongside a registered service of the same name in another group
(see `claim_C6_counterexample`). -/
theorem claim_C6 :
    ∀ (rs : List (VOps.ServiceRegistration × String)) (env : VOps.EnvOps),
    (((rs.foldl (fun acc p => VOps.register_service acc p.1 p.2) []).map
        Prod.fst).Nodup) ∧
    (∀ g ∈ VOps.get_services_config env
        (rs.foldl (fun acc p => VOps.register_service acc p.1 p.2) []),
      (g.2.map Prod.fst).Nodup) := by
  intro rs env
  constructor
  · have aux : ∀ (l : List (VOps.ServiceRegistration × String))
        (acc : List (String × VOps.RegInfo)), (acc.map Prod.fst).Nodup →
        (((l.foldl (fun acc p => VOps.register_service acc p.1 p.2) acc)).map
          Prod.fst).Nodup := by
      intro l
      induction l with
      | nil => intro acc h; exact h
      | cons p l ih =>
        intro acc h
        rw [List.foldl_cons]
        exact ih _ (VOps.dictInsert_nodup_keys h)
    exact aux rs [] (by simp)
  · have aux : ∀ (l : List (String × VOps.RegInfo)) (acc : VOps.GroupedConfig),
        (∀ g ∈ acc, (g.2.map Prod.fst).Nodup) →
        ∀ g ∈ l.foldl VOps.merge_step acc, (g.2.map Prod.fst).Nodup := by
      intro l
      induction l with
      | nil => intro acc h; exact h
      | cons p l ih =>
        intro acc h
        rw [List.foldl_cons]
        apply ih
        intro g hg
        rcases VOps.mem_dictInsert hg with rfl | hg2
        · show ((VOps.dictInsert p.1 (VOps.PyConfigVal.dict p.2.config)
            ((VOps.dictGet acc ((p.2.group).getD "registered_services")).getD
              [])).map Prod.fst).Nodup
          apply VOps.dictInsert_nodup_keys
          cases hget : VOps.dictGet acc ((p.2.group).getD "registered_services") with
          | none => simp
          | some i => simpa using h _ (VOps.mem_of_dictGet hget)
        · exact h g hg2
    apply aux
    intro g hg
    simp only [VOps.DEFAULT_SERVICES_CONFIG, List.mem_cons, List.not_mem_nil,
      or_false] at hg
    rcases hg with rfl | rfl | rfl
    · show (["backend", "frontend"] : List String).Nodup
      decide
    · show (["url", "health_endpoint", "monitoring_endpoint", "metrics_endpoint",
        "logs_endpoint", "register_endpoint"] : List String).Nodup
      decide
    · show (["grafana", "prometheus", "loki", "alertmanager"] : List String).Nodup
      decide

/-- C6 counterexample: registering a service named `"grafana"` (a name that
also exists statically in group `"ops_services"`) yields a snapshot holding
TWO entries named `"grafana"`, in the two different groups `"ops_services"`
and `"registered_services"` — the claim says no snapshot ever holds two
same-named entries in different groups. -/
theorem claim_C6_counterexample :
    (((VOps.get_services_config {} (VOps.register_service []
        { service_name := "grafana", service_url := "http://newgrafana:9999" }
        "2026-01-01T00:00:00")).flatMap
      (fun g => g.2.filter (fun p => p.1 == "grafana"))).length = 2) ∧
    ((VOps.get_services_config {} (VOps.register_service []
        { service_name := "grafana", service_url := "http://newgrafana:9999" }
        "2026-01-01T00:00:00")).filter
      (fun g => g.2.any (fun p => p.1 == "grafana"))).map (fun g => g.1) =
      ["ops_services", "registered_services"] := by
  constructor
  · rfl
  · rfl

/-- C7 — corrected.  Registration is idempotent and last-write-wins in the
registry: after registering the same name twice (from any registry whose
keys are distinct), exactly one registry entry carries that name and it
holds the config of the second registration.  A `lookup()` immediately
afterwards returns the new config — PROVIDED the name does not collide with
any member name of the static default config; a colliding name is shadowed
by the static entry (see `claim_C7_counterexample`). -/
theorem claim_C7 :
    ∀ (regs : List (String × VOps.RegInfo)) (r1 r2 : VOps.ServiceRegistration)
      (t1 t2 : String) (env : VOps.EnvOps),
    r1.service_name = r2.service_name →
    (regs.map Prod.fst).Nodup →
    r2.service_name ∉ VOps.default_member_names →
    (((VOps.register_service (VOps.register_service regs r1 t1) r2 t2).filter
        (fun p => p.1 == r2.service_name)).length = 1) ∧
    (VOps.dictGet (VOps.register_service (VOps.register_service regs r1 t1) r2 t2)
        r2.service_name =
      some { config := VOps.regConfigOf r2, group := some r2.group,
             registered_at := t2 }) ∧
    (VOps.lookup_service (VOps.get_services_config env
        (VOps.register_service (VOps.register_service regs r1 t1) r2 t2))
        r2.service_name =
      some (.dict (VOps.regConfigOf r2))) := by
  intro regs r1 r2 t1 t2 env hname hnd hX
  have hnd1 : (((VOps.register_service regs r1 t1)).map Prod.fst).Nodup :=
    VOps.dictInsert_nodup_keys hnd
  have hndR : (((VOps.register_service (VOps.register_service regs r1 t1) r2 t2)).map
      Prod.fst).Nodup := VOps.dictInsert_nodup_keys hnd1
  refine ⟨?_, ?_, ?_⟩
  · exact VOps.filter_key_length_one hndR
      (VOps.mem_dictInsert_self r2.service_name _ _)
  · exact VOps.dictGet_dictInsert_self r2.service_name _ _
  · apply VOps.lookup_service_of_NameBound
    apply VOps.foldl_merge_NameBound _ _ (VOps.default_config_nodup_groups env)
    · intro p hp hpX
      have hpe := VOps.eq_of_mem_dictInsert_key
        (show p ∈ VOps.dictInsert r2.service_name
          { config := VOps.regConfigOf r2, group := some r2.group,
            registered_at := t2 } (VOps.register_service regs r1 t1) from hp) hpX
      rw [hpe]
    · exact Or.inr ⟨VOps.default_config_NoName env hX,
        ⟨(r2.service_name,
          { config := VOps.regConfigOf r2, group := some r2.group,
            registered_at := t2 }),
         VOps.mem_dictInsert_self r2.service_name _ _, rfl⟩⟩

/-- C7 counterexample: register `"grafana"` twice, the second time with URL
`"http://second:2"`.  The registry stores the new URL, but `lookup` right
after the re-registration returns the STATIC grafana config
(`http://ops-grafana:3000`), not the new URL — the claim's final clause
fails. -/
theorem claim_C7_counterexample :
    (VOps.dictGet (VOps.register_service (VOps.register_service []
        { service_name := "grafana", service_url := "http://first:1" } "t1")
        { service_name := "grafana", service_url := "http://second:2" } "t2")
      "grafana" =
      some { config := VOps.regConfigOf
              { service_name := "grafana", service_url := "http://second:2" },
             group := some "registered_services", registered_at := "t2" }) ∧
    (VOps.lookup_service (VOps.get_services_config {}
        (VOps.register_service (VOps.register_service []
          { service_name := "grafana", service_url := "http://first:1" } "t1")
          { service_name := "grafana", service_url := "http://second:2" } "t2"))
      "grafana" =
      some (.dict { url := "http://ops-grafana:3000",
                    health_endpoint := some "/api/health" })) ∧
    ("http://ops-grafana:3000" : String) ≠ "http://second:2" := by
  refine ⟨rfl, rfl, by decide⟩

/-- C7 witness: a non-colliding name (`"newsvc"`) registered twice from the
empty registry; all hypotheses of `claim_C7` discharged concretely, and the
lookup returns the config of the second registration. -/
theorem claim_C7_witness :
    VOps.lookup_service (VOps.get_services_config {}
        (VOps.register_service (VOps.register_service []
          { service_name := "newsvc", service_url := "http://one:1" } "t1")
          { service_name := "newsvc", service_url := "http://two:2" } "t2"))
      "newsvc" =
      some (.dict (VOps.regConfigOf
        { service_name := "newsvc", service_url := "http://two:2" })) := by
  exact (claim_C7 [] { service_name := "newsvc", service_url := "http://one:1" }
    { service_name := "newsvc", service_url := "http://two:2" } "t1" "t2" {}
    rfl (by simp) (by decide)).2.2

/-- C8 — corrected.  Request-body validation accepts a registration iff both
`service_name` and `service_url` are PRESENT — any string value, the empty
string included (no non-emptiness check exists) — and a validated
registration always inserts or replaces the named entry.  The claim's
"fails with ValidationError whenever either is empty" is false:
see `claim_C8_counterexample`. -/
theorem claim_C8 :
    ∀ (r : VOps.RawRegistration) (reg : VOps.ServiceRegistration)
      (regs : List (String × VOps.RegInfo)) (t : String),
    (VOps.parse_ok r = (r.service_name.isSome && r.service_url.isSome)) ∧
    (VOps.dictGet (VOps.register_service regs reg t) reg.service_name =
      some { config := VOps.regConfigOf reg, group := some reg.group,
             registered_at := t }) := by
  intro r reg regs t
  constructor
  · obtain ⟨sn, su, g, he, me, mte, le, cap, md⟩ := r
    cases sn <;> cases su <;> rfl
  · exact VOps.dictGet_dictInsert_self reg.service_name _ _

/-- C8 counterexample: a registration body with `service_name = ""` and
`service_url = ""` passes validation and is stored (one entry keyed by the
empty string) — the claim demands a `ValidationError` here. -/
theorem claim_C8_counterexample :
    (VOps.parse_registration { service_name := some "", service_url := some "" } =
      Except.ok { service_name := "", service_url := "" }) ∧
    ((VOps.register_service [] { service_name := "", service_url := "" }
        "2026-01-01T00:00:00").map Prod.fst = [""]) := by
  exact ⟨rfl, rfl⟩

/-- C9 — corrected.  The monitoring-gateway variant does enforce the
configured ceilings, by rejecting the request during query validation
(`1 ≤ hours ≤ MAX_HOURS_LOOKBACK`, `1 ≤ limit ≤ MAX_LOG_LIMIT`); whenever a
downstream Loki query is issued its `limit` is the caller's value within
`[1, maxLimit]`.  The viralogic-ops `get_logs`, however, declares `hours` and
`limit` without bounds and applies no clamping: the downstream query carries
the caller's values unchanged, with no ceiling at all
(see `claim_C9_counterexample`). -/
theorem claim_C9 :
    ∀ (hours limit : Int) (service : Option String)
      (maxHours maxLimit now_ns : Int) (p : MonGW.LokiParamsGW)
      (service2 level : Option String) (hours2 limit2 now2 : Int),
    (MonGW.get_production_logs hours limit service maxHours maxLimit now_ns =
        some p →
      (1 ≤ p.limit ∧ p.limit ≤ maxLimit ∧ p.limit = limit ∧
       1 ≤ hours ∧ hours ≤ maxHours)) ∧
    ((VOps.get_logs_params service2 level hours2 limit2 now2).limit = limit2 ∧
     (VOps.get_logs_params service2 level hours2 limit2 now2).start =
       now2 - hours2 * 3600 * 1000) := by
  intro hours limit service maxHours maxLimit now_ns p service2 level hours2
    limit2 now2
  constructor
  · intro h
    unfold MonGW.get_production_logs at h
    split at h
    · rename_i hcond
      obtain rfl := (Option.some.inj h).symm
      exact ⟨hcond.2.2.1, hcond.2.2.2, rfl, hcond.1, hcond.2.1⟩
    · cases h
  · exact ⟨rfl, rfl⟩

/-- C9 witness: an in-range gateway request (hours 24, limit 100 against
ceilings 24/1000) is issued downstream with exactly those values. -/
theorem claim_C9_witness :
    1 ≤ (100 : Int) ∧ (100 : Int) ≤ 1000 ∧ (100 : Int) = 100 ∧
    1 ≤ (24 : Int) ∧ (24 : Int) ≤ 24 := by
  exact (claim_C9 24 100 none 24 1000 0
    { query := "\x7b\x7d", start_ns := 0 - 24 * 3600 * 1000000000,
      end_ns := 0, limit := 100 }
    none none 0 0 0).1 rfl

/-- C9 counterexample: the ops `get_logs` issues the downstream query with a
caller-supplied limit of 1000000000, far above the only configured ceiling in
the repository (the gateway default `MAX_LOG_LIMIT = 1000`) — no clamping or
rejection happens. -/
theorem claim_C9_counterexample :
    ((VOps.get_logs_params none none 24 1000000000 0).limit = 1000000000) ∧
    (MonGW.MAX_LOG_LIMIT_default < 1000000000) := by
  exact ⟨rfl, by decide⟩
